import Mathlib

/-!
Verification of `scripts/remove_coordinates.py`.

The script loads a GeoJSON file, walks `data.get('features', [])`, sets
`feature['geometry'] = None` for every feature that has a `geometry` key
(counting them), reassigns `data['features']`, and writes the result to
`Cleaned_Demographics_Data.geojson` in the input file's directory.

JSON documents are embedded as an inductive tree; Python dicts become
association lists that keep insertion order (numeric payloads are opaque to
the script, so they are carried as `Int`).  Statements the script can raise
a `TypeError` on are embedded as `Except.error`.
-/

/-- A JSON value as `json.load` produces it: Python `None`, `bool`, numbers,
`str`, `list` and `dict` (an insertion-ordered association list). -/
inductive Json where
  | null : Json
  | bool : Bool → Json
  | num : Int → Json
  | str : String → Json
  | arr : List Json → Json
  | obj : List (String × Json) → Json
deriving Repr

/-- Python `k in d` for a dict `d`: does some entry have key `k`? -/
def hasKey (kvs : List (String × Json)) (k : String) : Bool :=
  kvs.any (fun p => p.1 == k)

/-- Python `d[k]` lookup (as an Option): value of the first entry keyed `k`. -/
def getKey? (kvs : List (String × Json)) (k : String) : Option Json :=
  (kvs.find? (fun p => p.1 == k)).map (fun p => p.2)

/-- Python `d[k] = v`: replace the value in place when the key is present
(keeping its position in the insertion order), append a new entry otherwise. -/
def setKey (kvs : List (String × Json)) (k : String) (v : Json) : List (String × Json) :=
  if hasKey kvs k then kvs.map (fun p => if p.1 = k then (k, v) else p)
  else kvs ++ [(k, v)]

/-- Does the character list `s` start with `pat`? -/
def charsStartWith : List Char → List Char → Bool
  | _, [] => true
  | [], _ :: _ => false
  | a :: as, b :: bs => a == b && charsStartWith as bs

/-- Substring containment on character lists (Python `pat in s` for strings). -/
def charsContain : List Char → List Char → Bool
  | [], pat => pat.isEmpty
  | c :: rest, pat => charsStartWith (c :: rest) pat || charsContain rest pat

/-- Python `pat in s` for strings: substring containment. -/
def strContains (s pat : String) : Bool :=
  charsContain s.data pat.data

/-- Python `'geometry' == x` for a JSON value `x`: a string compares equal only
to an equal string (it is never `==` to numbers, booleans, lists or dicts). -/
def eqStrGeom : Json → Bool
  | Json.str s => s == "geometry"
  | _ => false

/-- One iteration of the loop body of `remove_coordinates.py` (lines 32-36)
on the element `feature`, returning the updated element and the increment to
`features_processed`:

* a dict: `'geometry' in feature` tests the key; if present,
  `feature['geometry'] = None` and the counter is incremented;
* a string: `'geometry' in feature` is a substring test, and when it holds the
  item assignment raises `TypeError`;
* a list: `'geometry' in feature` is a membership test, and when it holds the
  item assignment (string index into a list) raises `TypeError`;
* `None`, booleans and numbers: the `in` test itself raises `TypeError`. -/
def processFeature : Json → Except String (Json × Nat)
  | Json.obj kvs =>
    if hasKey kvs "geometry" then
      Except.ok (Json.obj (setKey kvs "geometry" Json.null), 1)
    else
      Except.ok (Json.obj kvs, 0)
  | Json.str s =>
    if strContains s "geometry" then
      Except.error "TypeError: str object does not support item assignment"
    else
      Except.ok (Json.str s, 0)
  | Json.arr xs =>
    if xs.any eqStrGeom then
      Except.error "TypeError: list indices must be integers or slices, not str"
    else
      Except.ok (Json.arr xs, 0)
  | Json.null => Except.error "TypeError: argument of type NoneType is not iterable"
  | Json.bool _ => Except.error "TypeError: argument of type bool is not iterable"
  | Json.num _ => Except.error "TypeError: argument of type number is not iterable"

/-- The `for feature in features:` loop (lines 32-36) over the already
iterated elements, threading the `features_processed` counter. -/
def stripFeatures : List Json → Except String (List Json × Nat)
  | [] => Except.ok ([], 0)
  | f :: rest =>
    match processFeature f with
    | Except.error e => Except.error e
    | Except.ok (f', c) =>
      match stripFeatures rest with
      | Except.error e => Except.error e
      | Except.ok (rest', cs) => Except.ok (f' :: rest', c + cs)

/-- Python iteration `for feature in features:` over a JSON value: a list
yields its elements, a string its one-character substrings, a dict its keys;
anything else raises `TypeError`. -/
def pyElems : Json → Except String (List Json)
  | Json.arr xs => Except.ok xs
  | Json.str s => Except.ok (s.data.map (fun c => Json.str (String.mk [c])))
  | Json.obj kvs => Except.ok (kvs.map (fun p => Json.str p.1))
  | _ => Except.error "TypeError: object is not iterable"

/-- Lines 29-38 of `remove_coordinates.py`: the in-memory stripping pass.
`features = data.get('features', [])`, the loop over the features, then
`data['features'] = features`.  Returns the updated document and
`features_processed`.  Only when `features` is a list do the loop's in-place
mutations show up in the reassigned value; for a string or a dict the
iterated elements are fresh strings and `features` itself is unchanged. -/
def strip (doc : List (String × Json)) : Except String (List (String × Json) × Nat) :=
  let fj := match getKey? doc "features" with
    | some v => v
    | none => Json.arr []
  match pyElems fj with
  | Except.error e => Except.error e
  | Except.ok elems =>
    match stripFeatures elems with
    | Except.error e => Except.error e
    | Except.ok (elems', n) =>
      let newF := match fj with
        | Json.arr _ => Json.arr elems'
        | other => other
      Except.ok (setKey doc "features" newF, n)

/-- The effect of the loop body on one feature dict: null out `geometry`
when the key is present, otherwise leave the dict alone. -/
def stripObj (kvs : List (String × Json)) : List (String × Json) :=
  if hasKey kvs "geometry" then setKey kvs "geometry" Json.null else kvs

/-- The effect of the loop body on one feature, as a total function on the
shapes the loop completes on without raising. -/
def stripOne : Json → Json
  | Json.obj kvs => Json.obj (stripObj kvs)
  | j => j

/-- Does a feature possess a `geometry` key (regardless of its value)? -/
def featureHasGeom : Json → Bool
  | Json.obj kvs => hasKey kvs "geometry"
  | _ => false

/-- Number of features that possess a `geometry` key. -/
def countGeomKey (fs : List Json) : Nat :=
  (fs.filter featureHasGeom).length

/-- Is this JSON value a dict? -/
def isObj : Json → Bool
  | Json.obj _ => true
  | _ => false

/-- The spec's data model for a document: `features` is optional, and when
present it is a sequence of Feature mappings. -/
def docConforms (doc : List (String × Json)) : Bool :=
  match getKey? doc "features" with
  | none => true
  | some (Json.arr fs) => fs.all isObj
  | some _ => false

/-! ### The surrounding script: paths, filesystem and CLI flow -/

/-- Drop trailing `'/'` characters (Python `rstrip('/')` on a path head). -/
def rstripSlash (cs : List Char) : List Char :=
  (cs.reverse.dropWhile (fun c => c == '/')).reverse

/-- POSIX `os.path.dirname`: take everything up to and including the last
`'/'` (empty when there is none), then strip trailing slashes unless the head
consists only of slashes. -/
def dirname (p : String) : String :=
  let cs := p.data
  let i : Nat := match cs.reverse.findIdx? (fun c => c == '/') with
    | some j => cs.length - j
    | none => 0
  let head := cs.take i
  if !head.isEmpty && !(head.all (fun c => c == '/')) then
    String.mk (rstripSlash head)
  else
    String.mk head

/-- POSIX `os.path.join(a, b)` for a single extra component. -/
def joinPath (a b : String) : String :=
  if b.startsWith "/" then b
  else if a == "" || a.endsWith "/" then a ++ b
  else a ++ "/" ++ b

/-- The fixed output filename (line 42). -/
def outputName : String := "Cleaned_Demographics_Data.geojson"

/-- Line 41: `input_dir = os.path.dirname(file_path) or '.'`. -/
def inputDir (fp : String) : String :=
  if dirname fp == "" then "." else dirname fp

/-- Line 42: `output_file_path = os.path.join(input_dir, 'Cleaned_Demographics_Data.geojson')`. -/
def outputFilePath (fp : String) : String :=
  joinPath (inputDir fp) outputName

/-- The filesystem as seen by the script: a mapping from path to the parsed
JSON content of the file stored there (serialization is treated as the
identity; `open(p, 'w')` replaces whatever was at `p`). -/
structure FS where
  files : List (String × Json)

/-- Python `os.path.exists`. -/
def FS.pathExists (fs : FS) (p : String) : Bool :=
  fs.files.any (fun q => q.1 == p)

/-- Python `json.load(open(p))`, as an Option. -/
def FS.read? (fs : FS) (p : String) : Option Json :=
  (fs.files.find? (fun q => q.1 == p)).map (fun q => q.2)

/-- Python `json.dump(v, open(p, 'w'))`: write `v` at `p`, overwriting any existing
file of that name. -/
def FS.write (fs : FS) (p : String) (v : Json) : FS :=
  ⟨setKey fs.files p v⟩

/-- Outcome of one run of the script: the process exit status, the resulting
filesystem and the lines printed to the console. -/
structure RunResult where
  exitCode : Nat
  fs : FS
  stdout : List String

/-- The value of `sys.argv[0]` as the script is normally invoked. -/
def scriptName : String := "scripts/remove_coordinates.py"

/-- The hardcoded default input path (line 9). -/
def defaultPath : String := "data/Raw_Demographic_Data.geojson"

/-- Lines 19-59 of the script, once `file_path` is fixed: the existence
check, load, strip, and write.  An uncaught exception (non-dict document or a
`TypeError` in the loop) terminates the process with status 1 before any
output file is opened. -/
def runWithPath (fp : String) (fs : FS) (out0 : List String) : RunResult :=
  if fs.pathExists fp = false then
    { exitCode := 1, fs := fs, stdout := out0 ++ ["Error: File not found: " ++ fp] }
  else
    let out1 := out0 ++ ["Loading GeoJSON file: " ++ fp]
    match fs.read? fp with
    | none => { exitCode := 1, fs := fs, stdout := out1 }
    | some j =>
      match j with
      | Json.obj doc =>
        match strip doc with
        | Except.error _ => { exitCode := 1, fs := fs, stdout := out1 }
        | Except.ok (doc', n) =>
          let op := outputFilePath fp
          let out2 := out1 ++ ["Removing coordinates from " ++ toString n ++ " features..."]
          { exitCode := 0,
            fs := fs.write op (Json.obj doc'),
            stdout := out2 ++ ["GeoJSON without coordinates saved to: " ++ op] }
      | _ => { exitCode := 1, fs := fs, stdout := out1 }

/-- Lines 6-16 then the rest: resolve `file_path` from the optional
command-line argument, falling back to the default path when it exists, and
run the script. -/
def runScript (arg? : Option String) (fs : FS) : RunResult :=
  match arg? with
  | some fp => runWithPath fp fs []
  | none =>
    if fs.pathExists defaultPath then
      runWithPath defaultPath fs ["Using default file: " ++ defaultPath]
    else
      { exitCode := 1, fs := fs,
        stdout := ["Error: Please provide a GeoJSON file path",
                   "Usage: python " ++ scriptName ++ " data/Raw_Demographic_Data.geojson"] }

/-! ### Association-list lemmas (Python dict update) -/

/-! ### Association-list lemmas (Python dict update) -/

lemma hasKey_cons (p : String × Json) (l : List (String × Json)) (k : String) :
    hasKey (p :: l) k = (p.1 == k || hasKey l k) := by
  simp [hasKey]

lemma getKey?_cons (p : String × Json) (l : List (String × Json)) (k : String) :
    getKey? (p :: l) k = if p.1 = k then some p.2 else getKey? l k := by
  by_cases hp : p.1 = k
  · simp [getKey?, List.find?, hp]
  · have hpb : (p.1 == k) = false := by simp [hp]
    simp [getKey?, List.find?, hpb, hp]

lemma setKey_of_hasKey {l : List (String × Json)} {k : String} (v : Json)
    (h : hasKey l k = true) :
    setKey l k v = l.map (fun p => if p.1 = k then (k, v) else p) := by
  rw [setKey, if_pos h]

lemma setKey_of_not_hasKey {l : List (String × Json)} {k : String} (v : Json)
    (h : hasKey l k = false) :
    setKey l k v = l ++ [(k, v)] := by
  rw [setKey, if_neg (by simp [h])]

lemma getKey?_map_update (l : List (String × Json)) (k : String) (v : Json)
    (h : hasKey l k = true) :
    getKey? (l.map (fun p => if p.1 = k then (k, v) else p)) k = some v := by
  induction l with
  | nil => simp [hasKey] at h
  | cons p l ih =>
    by_cases hp : p.1 = k
    · simp [getKey?_cons, hp]
    · have hpb : (p.1 == k) = false := by simp [hp]
      rw [hasKey_cons, hpb, Bool.false_or] at h
      simp [getKey?_cons, hp, ih h]

lemma getKey?_map_update_ne (l : List (String × Json)) (k k' : String) (v : Json)
    (hne : ¬ k' = k) :
    getKey? (l.map (fun p => if p.1 = k then (k, v) else p)) k' = getKey? l k' := by
  induction l with
  | nil => rfl
  | cons p l ih =>
    by_cases hp : p.1 = k
    · have h1 : ¬ k = k' := fun hc => hne hc.symm
      simp [getKey?_cons, hp, h1, ih]
    · by_cases hq : p.1 = k'
      · simp [getKey?_cons, hp, hq, hne]
      · simp [getKey?_cons, hp, hq, ih]

lemma map_update_id (l : List (String × Json)) (k : String) (v : Json)
    (h : hasKey l k = false) :
    l.map (fun p => if p.1 = k then (k, v) else p) = l := by
  induction l with
  | nil => rfl
  | cons p l ih =>
    rw [hasKey_cons] at h
    rcases Bool.or_eq_false_iff.mp h with ⟨h1, h2⟩
    have hp : ¬ p.1 = k := by simpa using h1
    simp [hp, ih h2]

lemma getKey?_append_new (l : List (String × Json)) (k : String) (v : Json)
    (h : hasKey l k = false) :
    getKey? (l ++ [(k, v)]) k = some v := by
  induction l with
  | nil => simp [getKey?_cons]
  | cons p l ih =>
    rw [hasKey_cons] at h
    rcases Bool.or_eq_false_iff.mp h with ⟨h1, h2⟩
    have hp : ¬ p.1 = k := by simpa using h1
    simp [List.cons_append, getKey?_cons, hp, ih h2]

lemma getKey?_append_ne (l : List (String × Json)) (k k' : String) (v : Json)
    (hne : ¬ k' = k) :
    getKey? (l ++ [(k, v)]) k' = getKey? l k' := by
  induction l with
  | nil =>
    have h1 : ¬ k = k' := fun hc => hne hc.symm
    simp [getKey?_cons, h1, getKey?]
  | cons p l ih =>
    by_cases hq : p.1 = k'
    · simp [List.cons_append, getKey?_cons, hq]
    · simp [List.cons_append, getKey?_cons, hq, ih]

lemma getKey?_setKey_self (l : List (String × Json)) (k : String) (v : Json) :
    getKey? (setKey l k v) k = some v := by
  cases h : hasKey l k with
  | true => rw [setKey_of_hasKey v h]; exact getKey?_map_update l k v h
  | false => rw [setKey_of_not_hasKey v h]; exact getKey?_append_new l k v h

lemma getKey?_setKey_ne (l : List (String × Json)) (k k' : String) (v : Json)
    (hne : ¬ k' = k) :
    getKey? (setKey l k v) k' = getKey? l k' := by
  cases h : hasKey l k with
  | true => rw [setKey_of_hasKey v h]; exact getKey?_map_update_ne l k k' v hne
  | false => rw [setKey_of_not_hasKey v h]; exact getKey?_append_ne l k k' v hne

lemma hasKey_iff_getKey? (l : List (String × Json)) (k : String) :
    hasKey l k = true ↔ ∃ v, getKey? l k = some v := by
  induction l with
  | nil => simp [hasKey, getKey?, List.find?]
  | cons p l ih =>
    by_cases hp : p.1 = k
    · simp [hasKey_cons, hp, getKey?_cons]
    · simp [hasKey_cons, hp, getKey?_cons, ih]

lemma hasKey_setKey_self (l : List (String × Json)) (k : String) (v : Json) :
    hasKey (setKey l k v) k = true := by
  rw [hasKey_iff_getKey?]
  exact ⟨v, getKey?_setKey_self l k v⟩

lemma hasKey_setKey_ne (l : List (String × Json)) (k k' : String) (v : Json)
    (hne : ¬ k' = k) :
    hasKey (setKey l k v) k' = hasKey l k' := by
  cases ht : hasKey l k' with
  | true =>
    rcases (hasKey_iff_getKey? _ _).1 ht with ⟨w, hw⟩
    apply (hasKey_iff_getKey? _ _).2
    exact ⟨w, by rw [getKey?_setKey_ne l k k' v hne]; exact hw⟩
  | false =>
    cases ht' : hasKey (setKey l k v) k' with
    | false => rfl
    | true =>
      exfalso
      rcases (hasKey_iff_getKey? _ _).1 ht' with ⟨w, hw⟩
      rw [getKey?_setKey_ne l k k' v hne] at hw
      have : hasKey l k' = true := (hasKey_iff_getKey? _ _).2 ⟨w, hw⟩
      rw [ht] at this
      exact Bool.false_ne_true this

lemma setKey_setKey_self (l : List (String × Json)) (k : String) (v : Json) :
    setKey (setKey l k v) k v = setKey l k v := by
  cases h : hasKey l k with
  | true =>
    have h2 : hasKey (l.map (fun p => if p.1 = k then (k, v) else p)) k = true := by
      rw [← setKey_of_hasKey v h]
      exact hasKey_setKey_self l k v
    rw [setKey_of_hasKey v h, setKey_of_hasKey v h2, List.map_map]
    apply List.map_congr_left
    intro p _
    by_cases hp : p.1 = k
    · simp [Function.comp, hp]
    · simp [Function.comp, hp]
  | false =>
    have h2 : hasKey (l ++ [(k, v)]) k = true := by
      rw [← setKey_of_not_hasKey v h]
      exact hasKey_setKey_self l k v
    rw [setKey_of_not_hasKey v h, setKey_of_hasKey v h2, List.map_append,
      map_update_id l k v h]
    simp

/-! ### The loop in closed form -/

lemma stripObj_of_hasKey {kvs : List (String × Json)}
    (h : hasKey kvs "geometry" = true) :
    stripObj kvs = setKey kvs "geometry" Json.null := by
  rw [stripObj, if_pos h]

lemma stripObj_of_not_hasKey {kvs : List (String × Json)}
    (h : hasKey kvs "geometry" = false) :
    stripObj kvs = kvs := by
  rw [stripObj, if_neg (by simp [h])]

lemma hasKey_stripObj_geom (kvs : List (String × Json)) :
    hasKey (stripObj kvs) "geometry" = hasKey kvs "geometry" := by
  cases h : hasKey kvs "geometry" with
  | true => rw [stripObj_of_hasKey h, hasKey_setKey_self]
  | false => rw [stripObj_of_not_hasKey h, h]

lemma getKey?_stripObj_geom {kvs : List (String × Json)}
    (h : hasKey kvs "geometry" = true) :
    getKey? (stripObj kvs) "geometry" = some Json.null := by
  rw [stripObj_of_hasKey h, getKey?_setKey_self]

lemma getKey?_stripObj_ne (kvs : List (String × Json)) (k : String)
    (hne : ¬ k = "geometry") :
    getKey? (stripObj kvs) k = getKey? kvs k := by
  cases h : hasKey kvs "geometry" with
  | true => rw [stripObj_of_hasKey h, getKey?_setKey_ne _ _ _ _ hne]
  | false => rw [stripObj_of_not_hasKey h]

lemma hasKey_stripObj_ne (kvs : List (String × Json)) (k : String)
    (hne : ¬ k = "geometry") :
    hasKey (stripObj kvs) k = hasKey kvs k := by
  cases h : hasKey kvs "geometry" with
  | true => rw [stripObj_of_hasKey h, hasKey_setKey_ne _ _ _ _ hne]
  | false => rw [stripObj_of_not_hasKey h]

lemma stripObj_idem (kvs : List (String × Json)) :
    stripObj (stripObj kvs) = stripObj kvs := by
  cases h : hasKey kvs "geometry" with
  | true =>
    have h2 : hasKey (stripObj kvs) "geometry" = true := by
      rw [hasKey_stripObj_geom, h]
    rw [stripObj_of_hasKey h2, stripObj_of_hasKey h, setKey_setKey_self]
  | false =>
    rw [stripObj_of_not_hasKey h, stripObj_of_not_hasKey h]

lemma stripOne_idem (f : Json) : stripOne (stripOne f) = stripOne f := by
  cases f <;> simp [stripOne, stripObj_idem]

lemma featureHasGeom_stripOne (f : Json) :
    featureHasGeom (stripOne f) = featureHasGeom f := by
  cases f <;> simp [stripOne, featureHasGeom, hasKey_stripObj_geom]

lemma isObj_stripOne (f : Json) : isObj (stripOne f) = isObj f := by
  cases f <;> simp [stripOne, isObj]

lemma countGeomKey_cons (f : Json) (rest : List Json) :
    countGeomKey (f :: rest) = (if featureHasGeom f then 1 else 0) + countGeomKey rest := by
  cases hf : featureHasGeom f with
  | true => simp [countGeomKey, List.filter_cons, hf, Nat.add_comm]
  | false => simp [countGeomKey, List.filter_cons, hf]

lemma countGeomKey_map_stripOne (fs : List Json) :
    countGeomKey (fs.map stripOne) = countGeomKey fs := by
  induction fs with
  | nil => rfl
  | cons f rest ih =>
    rw [List.map_cons, countGeomKey_cons, countGeomKey_cons,
      featureHasGeom_stripOne, ih]

lemma all_isObj_map_stripOne (fs : List Json) (h : fs.all isObj = true) :
    (fs.map stripOne).all isObj = true := by
  rw [List.all_eq_true] at h ⊢
  intro x hx
  rcases List.mem_map.mp hx with ⟨f, hf, rfl⟩
  rw [isObj_stripOne]
  exact h f hf

lemma processFeature_obj (kvs : List (String × Json)) :
    processFeature (Json.obj kvs) =
      Except.ok (Json.obj (stripObj kvs),
        if featureHasGeom (Json.obj kvs) then 1 else 0) := by
  cases h : hasKey kvs "geometry" with
  | true =>
    simp only [processFeature, h, featureHasGeom, if_true, stripObj_of_hasKey h]
  | false =>
    simp only [processFeature, h, featureHasGeom, stripObj_of_not_hasKey h]
    simp

lemma stripFeatures_objs (fs : List Json) (h : fs.all isObj = true) :
    stripFeatures fs = Except.ok (fs.map stripOne, countGeomKey fs) := by
  induction fs with
  | nil => rfl
  | cons f rest ih =>
    rw [List.all_cons, Bool.and_eq_true] at h
    obtain ⟨hf, hrest⟩ := h
    cases f with
    | null => simp [isObj] at hf
    | bool b => simp [isObj] at hf
    | num n => simp [isObj] at hf
    | str s => simp [isObj] at hf
    | arr xs => simp [isObj] at hf
    | obj kvs =>
      rw [stripFeatures, processFeature_obj, ih hrest]
      simp only [List.map_cons, stripOne, countGeomKey_cons]

lemma strip_eq_of_features (doc : List (String × Json)) (fs : List Json)
    (h1 : getKey? doc "features" = some (Json.arr fs)) (h2 : fs.all isObj = true) :
    strip doc =
      Except.ok (setKey doc "features" (Json.arr (fs.map stripOne)), countGeomKey fs) := by
  simp only [strip, h1, pyElems, stripFeatures_objs fs h2]

lemma strip_eq_of_no_features (doc : List (String × Json))
    (h : getKey? doc "features" = none) :
    strip doc = Except.ok (setKey doc "features" (Json.arr []), 0) := by
  simp only [strip, h, pyElems, stripFeatures]

lemma strip_ok_setKey (doc doc' : List (String × Json)) (n : Nat)
    (h : strip doc = Except.ok (doc', n)) :
    ∃ x, doc' = setKey doc "features" x := by
  simp only [strip] at h
  split at h
  · cases h
  · split at h
    · cases h
    · rcases h with ⟨rfl, rfl⟩
      exact ⟨_, rfl⟩

lemma stripOne_of_no_geom (f : Json) (h : featureHasGeom f = false) :
    stripOne f = f := by
  cases f with
  | obj kvs =>
    rw [featureHasGeom] at h
    rw [stripOne, stripObj_of_not_hasKey h]
  | null => rfl
  | bool b => rfl
  | num n => rfl
  | str s => rfl
  | arr xs => rfl

lemma map_stripOne_map_stripOne (fs : List Json) :
    (fs.map stripOne).map stripOne = fs.map stripOne := by
  rw [List.map_map]
  apply List.map_congr_left
  intro f _
  exact stripOne_idem f

lemma FS.read?_write_self (fs : FS) (p : String) (v : Json) :
    FS.read? (FS.write fs p v) p = some v :=
  getKey?_setKey_self fs.files p v

lemma FS.pathExists_of_read? (fs : FS) (p : String) (v : Json)
    (h : FS.read? fs p = some v) : FS.pathExists fs p = true :=
  (hasKey_iff_getKey? fs.files p).2 ⟨v, h⟩

/-! ### Concrete documents for the witnesses -/

/-- The spec's end-to-end example: a feature with a Point geometry. -/
def exFeatureA : Json :=
  Json.obj [("type", Json.str "Feature"),
            ("geometry", Json.obj [("type", Json.str "Point"),
                                   ("coordinates", Json.arr [Json.num 1, Json.num 2])]),
            ("properties", Json.obj [("name", Json.str "A")])]

/-- The spec's end-to-end example: a feature with no `geometry` key. -/
def exFeatureB : Json :=
  Json.obj [("type", Json.str "Feature"),
            ("properties", Json.obj [("name", Json.str "B")])]

def exFeatures : List Json := [exFeatureA, exFeatureB]

def exDoc : List (String × Json) :=
  [("type", Json.str "FeatureCollection"), ("features", Json.arr exFeatures)]

/-- The document `exDoc` after the stripping pass: the Point geometry is nulled. -/
def exDocStripped : List (String × Json) :=
  [("type", Json.str "FeatureCollection"),
   ("features", Json.arr
     [Json.obj [("type", Json.str "Feature"), ("geometry", Json.null),
                ("properties", Json.obj [("name", Json.str "A")])],
      exFeatureB])]

/-- A document with no `features` key at all. -/
def exDocNoFeatures : List (String × Json) :=
  [("type", Json.str "FeatureCollection"), ("name", Json.str "empty")]

/-! ### The claims -/

/-- C1: for every document whose `features` value is a sequence of feature
mappings, the stripping pass returns a `features_processed` count equal to the
number of elements that possessed a `geometry` key before the call; elements
without the key are not counted. -/
theorem strip_processedCount (doc : List (String × Json)) (fs : List Json)
    (h1 : getKey? doc "features" = some (Json.arr fs)) (h2 : fs.all isObj = true) :
    ∃ doc', strip doc = Except.ok (doc', (fs.filter featureHasGeom).length) :=
  ⟨_, strip_eq_of_features doc fs h1 h2⟩

theorem strip_processedCount_witness :
    ∃ doc', strip exDoc = Except.ok (doc', 1) :=
  strip_processedCount exDoc exFeatures rfl rfl

/-- C2: the `features` sequence of the output has the same length as the
input's, and its `i`-th element is obtained from the input's `i`-th element
(the relative order is unchanged). -/
theorem strip_preserves_length_order (doc : List (String × Json)) (fs : List Json)
    (h1 : getKey? doc "features" = some (Json.arr fs)) (h2 : fs.all isObj = true) :
    ∃ fs' n, strip doc = Except.ok (setKey doc "features" (Json.arr fs'), n) ∧
      fs'.length = fs.length ∧
      ∀ i (hi : i < fs.length) (hi' : i < fs'.length),
        fs'.get ⟨i, hi'⟩ = stripOne (fs.get ⟨i, hi⟩) := by
  refine ⟨fs.map stripOne, countGeomKey fs, strip_eq_of_features doc fs h1 h2, by simp, ?_⟩
  intro i hi hi'
  simp

theorem strip_preserves_length_order_witness :
    ∃ fs' n, strip exDoc = Except.ok (setKey exDoc "features" (Json.arr fs'), n) ∧
      fs'.length = exFeatures.length ∧
      ∀ i (hi : i < exFeatures.length) (hi' : i < fs'.length),
        fs'.get ⟨i, hi'⟩ = stripOne (exFeatures.get ⟨i, hi⟩) :=
  strip_preserves_length_order exDoc exFeatures rfl rfl

/-- C3: the stripping pass is idempotent: applied to its own output document
it returns the same document and the same count, because a feature whose
`geometry` value is already null still possesses the `geometry` key and is
counted again on the second pass. -/
theorem strip_idempotent (doc : List (String × Json)) (fs : List Json)
    (h1 : getKey? doc "features" = some (Json.arr fs)) (h2 : fs.all isObj = true) :
    ∃ doc' n, strip doc = Except.ok (doc', n) ∧ strip doc' = Except.ok (doc', n) := by
  refine ⟨setKey doc "features" (Json.arr (fs.map stripOne)), countGeomKey fs,
    strip_eq_of_features doc fs h1 h2, ?_⟩
  have hg : getKey? (setKey doc "features" (Json.arr (fs.map stripOne))) "features" =
      some (Json.arr (fs.map stripOne)) := getKey?_setKey_self doc "features" _
  rw [strip_eq_of_features _ (fs.map stripOne) hg (all_isObj_map_stripOne fs h2),
    map_stripOne_map_stripOne, setKey_setKey_self, countGeomKey_map_stripOne]

theorem strip_idempotent_witness :
    ∃ doc' n, strip exDoc = Except.ok (doc', n) ∧ strip doc' = Except.ok (doc', n) :=
  strip_idempotent exDoc exFeatures rfl rfl

/-- C4: features without a `geometry` key come out structurally identical, and
in a feature with one, every field other than `geometry` keeps its value and
presence. -/
theorem strip_frame (doc : List (String × Json)) (fs : List Json)
    (h1 : getKey? doc "features" = some (Json.arr fs)) (h2 : fs.all isObj = true) :
    strip doc =
      Except.ok (setKey doc "features" (Json.arr (fs.map stripOne)), countGeomKey fs)
    ∧ (∀ f ∈ fs, featureHasGeom f = false → stripOne f = f)
    ∧ (∀ kvs, Json.obj kvs ∈ fs → ∀ k, ¬ k = "geometry" →
        getKey? (stripObj kvs) k = getKey? kvs k ∧
        hasKey (stripObj kvs) k = hasKey kvs k) := by
  refine ⟨strip_eq_of_features doc fs h1 h2, ?_, ?_⟩
  · intro f _ hf
    exact stripOne_of_no_geom f hf
  · intro kvs _ k hk
    exact ⟨getKey?_stripObj_ne kvs k hk, hasKey_stripObj_ne kvs k hk⟩

theorem strip_frame_witness :
    strip exDoc =
      Except.ok (setKey exDoc "features" (Json.arr (exFeatures.map stripOne)),
        countGeomKey exFeatures)
    ∧ (∀ f ∈ exFeatures, featureHasGeom f = false → stripOne f = f)
    ∧ (∀ kvs, Json.obj kvs ∈ exFeatures → ∀ k, ¬ k = "geometry" →
        getKey? (stripObj kvs) k = getKey? kvs k ∧
        hasKey (stripObj kvs) k = hasKey kvs k) :=
  strip_frame exDoc exFeatures rfl rfl

/-- C5: a document with no `features` key is treated as having an empty
feature sequence: the pass reports zero processed features (and reassigns
`features` to the empty list). -/
theorem strip_absent_features (doc : List (String × Json))
    (h : getKey? doc "features" = none) :
    strip doc = Except.ok (setKey doc "features" (Json.arr []), 0) :=
  strip_eq_of_no_features doc h

theorem strip_absent_features_witness :
    strip exDocNoFeatures = Except.ok (setKey exDocNoFeatures "features" (Json.arr []), 0) :=
  strip_absent_features exDocNoFeatures rfl

/-- C6: on every document of the data model (an optional `features` key whose
value, when present, is a sequence of feature mappings — with or without
`geometry` keys), the stripping pass completes without raising. -/
theorem strip_no_failure (doc : List (String × Json))
    (h : docConforms doc = true) :
    ∃ r, strip doc = Except.ok r := by
  cases hf : getKey? doc "features" with
  | none => exact ⟨_, strip_eq_of_no_features doc hf⟩
  | some v =>
    rw [docConforms, hf] at h
    cases v with
    | arr fs => exact ⟨_, strip_eq_of_features doc fs hf h⟩
    | null => cases h
    | bool b => cases h
    | num n => cases h
    | str s => cases h
    | obj kvs => cases h

theorem strip_no_failure_witness :
    ∃ r, strip exDoc = Except.ok r :=
  strip_no_failure exDoc rfl

/-- C9: a feature that had a `geometry` key still has the key after the pass,
with its value set to null; the key is never deleted. -/
theorem strip_geometry_key_kept (doc : List (String × Json)) (fs : List Json)
    (h1 : getKey? doc "features" = some (Json.arr fs)) (h2 : fs.all isObj = true) :
    ∃ n, strip doc = Except.ok (setKey doc "features" (Json.arr (fs.map stripOne)), n) ∧
      ∀ kvs, Json.obj kvs ∈ fs → hasKey kvs "geometry" = true →
        hasKey (stripObj kvs) "geometry" = true ∧
        getKey? (stripObj kvs) "geometry" = some Json.null := by
  refine ⟨countGeomKey fs, strip_eq_of_features doc fs h1 h2, ?_⟩
  intro kvs _ hg
  exact ⟨by rw [hasKey_stripObj_geom, hg], getKey?_stripObj_geom hg⟩

theorem strip_geometry_key_kept_witness :
    ∃ n, strip exDoc =
        Except.ok (setKey exDoc "features" (Json.arr (exFeatures.map stripOne)), n) ∧
      ∀ kvs, Json.obj kvs ∈ exFeatures → hasKey kvs "geometry" = true →
        hasKey (stripObj kvs) "geometry" = true ∧
        getKey? (stripObj kvs) "geometry" = some Json.null :=
  strip_geometry_key_kept exDoc exFeatures rfl rfl

/-- C10: whenever the pass completes, the output document has a `features`
key (added with value `[]` when the input lacked it — absence is not
preserved), and every other top-level key keeps its value and presence. -/
theorem strip_features_key_invariant (doc doc' : List (String × Json)) (n : Nat)
    (h : strip doc = Except.ok (doc', n)) :
    hasKey doc' "features" = true ∧
    (getKey? doc "features" = none → getKey? doc' "features" = some (Json.arr [])) ∧
    ∀ k, ¬ k = "features" → getKey? doc' k = getKey? doc k ∧
      hasKey doc' k = hasKey doc k := by
  obtain ⟨x, hx⟩ := strip_ok_setKey doc doc' n h
  subst hx
  refine ⟨hasKey_setKey_self doc "features" x, ?_, ?_⟩
  · intro hnone
    rw [strip_eq_of_no_features doc hnone] at h
    have hpair := Except.ok.inj h
    have h1 : setKey doc "features" (Json.arr []) = setKey doc "features" x :=
      congrArg Prod.fst hpair
    rw [← h1, getKey?_setKey_self]
  · intro k hk
    exact ⟨getKey?_setKey_ne doc "features" k x hk,
      hasKey_setKey_ne doc "features" k x hk⟩

theorem strip_features_key_invariant_witness :
    hasKey (setKey exDocNoFeatures "features" (Json.arr [])) "features" = true ∧
    (getKey? exDocNoFeatures "features" = none →
      getKey? (setKey exDocNoFeatures "features" (Json.arr [])) "features" =
        some (Json.arr [])) ∧
    ∀ k, ¬ k = "features" →
      getKey? (setKey exDocNoFeatures "features" (Json.arr [])) k =
        getKey? exDocNoFeatures k ∧
      hasKey (setKey exDocNoFeatures "features" (Json.arr [])) k =
        hasKey exDocNoFeatures k :=
  strip_features_key_invariant exDocNoFeatures
    (setKey exDocNoFeatures "features" (Json.arr [])) 0 rfl

/-- An input filesystem for the script runs: the input file plus a stale file
already sitting at the output path (to be overwritten). -/
def exFS : FS :=
  ⟨[("data/in.geojson", Json.obj exDoc),
    ("data/Cleaned_Demographics_Data.geojson", Json.str "stale")]⟩

/-- C7: the output file path is the input file's directory joined with the
fixed name `Cleaned_Demographics_Data.geojson`, and the write replaces
whatever file was at that path (no hypothesis below excludes a pre-existing
one). -/
theorem script_output_path (fp : String) (fs : FS)
    (doc doc' : List (String × Json)) (n : Nat)
    (h1 : FS.read? fs fp = some (Json.obj doc))
    (h2 : strip doc = Except.ok (doc', n)) :
    outputFilePath fp = joinPath (inputDir fp) "Cleaned_Demographics_Data.geojson"
    ∧ (runScript (some fp) fs).fs = FS.write fs (outputFilePath fp) (Json.obj doc')
    ∧ FS.read? (runScript (some fp) fs).fs (outputFilePath fp) = some (Json.obj doc') := by
  have hex : fs.pathExists fp = true := FS.pathExists_of_read? fs fp _ h1
  refine ⟨rfl, ?_, ?_⟩
  · simp only [runScript, runWithPath, hex, h1, h2]
    simp
  · simp only [runScript, runWithPath, hex, h1, h2]
    simp only [Bool.true_eq_false, if_false]
    exact FS.read?_write_self fs (outputFilePath fp) (Json.obj doc')

theorem script_output_path_witness :
    outputFilePath "data/in.geojson" =
      joinPath (inputDir "data/in.geojson") "Cleaned_Demographics_Data.geojson"
    ∧ (runScript (some "data/in.geojson") exFS).fs =
        FS.write exFS (outputFilePath "data/in.geojson") (Json.obj exDocStripped)
    ∧ FS.read? (runScript (some "data/in.geojson") exFS).fs
        (outputFilePath "data/in.geojson") = some (Json.obj exDocStripped) :=
  script_output_path "data/in.geojson" exFS exDoc exDocStripped 1 rfl rfl

/-- C8: when the input path does not exist, the script prints a file-not-found
message, exits with status 1, and leaves the filesystem untouched (no partial
output is written). -/
theorem script_missing_input (fp : String) (fs : FS)
    (h : fs.pathExists fp = false) :
    (runScript (some fp) fs).exitCode = 1 ∧ (runScript (some fp) fs).fs = fs ∧
      ("Error: File not found: " ++ fp) ∈ (runScript (some fp) fs).stdout := by
  simp [runScript, runWithPath, h]

theorem script_missing_input_witness :
    (runScript (some "missing.geojson") exFS).exitCode = 1 ∧
    (runScript (some "missing.geojson") exFS).fs = exFS ∧
    ("Error: File not found: " ++ "missing.geojson") ∈
      (runScript (some "missing.geojson") exFS).stdout :=
  script_missing_input "missing.geojson" exFS rfl
